import Mathlib

/-!
Verification development for the averell poetry-corpus pipeline
(readers/plsdo.py, utils.py, core.py), shallowly embedded in Lean.

Python machine model:
* `pyInt` models `int(str)`: optional surrounding whitespace, optional
  sign, a nonempty digit run with single underscores allowed between
  digits.
* `pyListGet` models `list[i]` indexing including negative wraparound:
  `l[i]` is `l[i + len l]` for `-len l <= i < 0`, and out-of-range
  access raises `IndexError` (here: `none`).
* Python exceptions are modelled by the `PyErr` kind that the
  corresponding Python operation raises; fallible code returns
  `Except PyErr _` (or `Option _` where only one failure exists).
-/

namespace Averell

/-- Python exception kinds that the embedded code can raise. -/
inductive PyErr where
  | valueError
  | indexError
  | keyError
  | attributeError
  | typeError
deriving DecidableEq, Repr

/-- `true` iff an `Except` computation succeeded. -/
def exOk {ε α : Type} : Except ε α → Bool
  | .ok _ => true
  | .error _ => false

/-- Digit-run parser for `int()`: first char must be a digit; afterwards a
single `_` may stand between digits (CPython underscore rule). -/
def pyDigitsGo (acc : Nat) : List Char → Option Nat
  | [] => some acc
  | '_' :: c :: cs =>
      if c.isDigit then pyDigitsGo (acc * 10 + (c.toNat - 48)) cs else none
  | ['_'] => none
  | c :: cs =>
      if c.isDigit then pyDigitsGo (acc * 10 + (c.toNat - 48)) cs else none

/-- Nonempty digit run (with CPython underscore rule) to its value. -/
def pyDigits : List Char → Option Nat
  | [] => none
  | c :: cs => if c.isDigit then pyDigitsGo (c.toNat - 48) cs else none

/-- Model of Python `int(s)`: strip whitespace, optional single sign,
then a digit run; raises `ValueError` (here `none`) otherwise. -/
def pyInt (s : String) : Option Int :=
  let t := ((s.data.dropWhile Char.isWhitespace).reverse.dropWhile
    Char.isWhitespace).reverse
  match t with
  | '+' :: rest => (pyDigits rest).map Int.ofNat
  | '-' :: rest => (pyDigits rest).map (fun n => -(n : Int))
  | rest => (pyDigits rest).map Int.ofNat

/-- Model of Python list indexing `l[i]`, with negative wraparound. -/
def pyListGet {α : Type} (l : List α) (i : Int) : Option α :=
  if 0 ≤ i then l.get? i.toNat
  else if 0 ≤ i + l.length then l.get? (i + l.length).toNat
  else none

/-- Python `s.split(sep)` for a single-character separator, on char
lists: every separator occurrence cuts, adjacent separators produce
empty fragments. -/
def splitOnChar (sep : Char) : List Char → List (List Char)
  | [] => [[]]
  | c :: cs =>
    if c = sep then [] :: splitOnChar sep cs
    else
      match splitOnChar sep cs with
      | [] => [[c]]
      | g :: gs => (c :: g) :: gs

/-- `pat` starts the list `l`. -/
def listStartsWith : List Char → List Char → Bool
  | _, [] => true
  | [], _ :: _ => false
  | c :: cs, p :: ps => c = p && listStartsWith cs ps

/-- `pat` occurs somewhere in `l`. -/
def listContainsSub : List Char → List Char → Bool
  | [], pat => pat.isEmpty
  | c :: cs, pat => listStartsWith (c :: cs) pat || listContainsSub cs pat

/-- Python `pat in s` substring test. -/
def strContains (s pat : String) : Bool :=
  listContainsSub s.data pat.data

/-! ## Metrical-pattern normalizer (plsdo.py lines 41-42)

`re.sub(r"[0-9]+", "+", line.attrib["met"].replace("|", ""))`:
first every `|` is removed, then each maximal digit run of the
resulting string is replaced by a single `+`. -/

/-- Left-to-right scan of `re.sub(r"[0-9]+", "+", ·)`: the flag records
whether the previous character was part of a digit run. -/
def subDigitRuns (prevDigit : Bool) : List Char → List Char
  | [] => []
  | c :: cs =>
      if c.isDigit then
        (if prevDigit then [] else ['+']) ++ subDigitRuns true cs
      else c :: subDigitRuns false cs

/-- The metrical-pattern normalizer of `parse_xml`:
`re.sub(r"[0-9]+", "+", met.replace("|", ""))`. -/
def normalizeMetricalPattern (met : String) : String :=
  ⟨subDigitRuns false (met.data.filter (fun c => c ≠ '|'))⟩

/-! ## Word parsing (plsdo.py lines 47-59) -/

/-- Canonical word record. `has_synalepha` is present only when true
(the key is added only in that case), modelled by `Option Bool`. -/
structure Word where
  word_text : String
  syllables : List String
  has_synalepha : Option Bool
deriving DecidableEq, Repr

/-- The vowel set of the regex `[aeiouáéíóú]`. -/
def synalephaVowels : List Char := ['a', 'e', 'i', 'o', 'u', 'á', 'é', 'í', 'ó', 'ú']

/-- The word block of `parse_xml` applied to the raw text of one `w`
element: `word.text[-1]` raises `IndexError` on the empty string
(`none`); otherwise the synalepha flag tests the raw text's last
character, the syllables are the nonempty fragments of the `|`-split,
and `word_text` joins them. -/
def parseWord (raw : String) : Option Word :=
  match raw.data.getLast? with
  | none => none
  | some lastChar =>
      let syllables :=
        ((splitOnChar '|' raw.data).map (fun l => (⟨l⟩ : String))).filter
          (fun s => s ≠ "")
      some
        { word_text := String.join syllables
          syllables := syllables
          has_synalepha :=
            if lastChar ∈ synalephaVowels then some true else none }

/-! ## XML document model

An ElementTree element: tag, attributes, text (first text node), tail
(text following the element) and child elements.  Comments parsed by
`CommentedTreeBuilder` appear as ordinary children whose tag is the
reserved string `"!comment"` and whose attributes are empty.  The
constant TEI namespace prefix `{http://www.tei-c.org/ns/1.0}` that the
source prepends to every tag is dropped from the modelled tag names. -/
inductive Element where
  | mk (tag : String) (attrib : List (String × String)) (text tail : Option String)
      (children : List Element)

def Element.tagOf : Element → String
  | .mk t _ _ _ _ => t

def Element.attribOf : Element → List (String × String)
  | .mk _ a _ _ _ => a

def Element.textOf : Element → Option String
  | .mk _ _ tx _ _ => tx

def Element.tailOf : Element → Option String
  | .mk _ _ _ tl _ => tl

def Element.childrenOf : Element → List Element
  | .mk _ _ _ _ cs => cs

/-- `element.attrib[k]` (`none` models the `KeyError` case). -/
def Element.attr (e : Element) (k : String) : Option String :=
  (e.attribOf.find? (fun kv => kv.1 == k)).map Prod.snd

mutual
/-- Proper descendants of an element in document order
(the `.//` axis of ElementTree relative to the element). -/
def elemDescendants : Element → List Element
  | .mk _ _ _ _ cs => listDescendants cs

def listDescendants : List Element → List Element
  | [] => []
  | e :: rest => e :: (elemDescendants e ++ listDescendants rest)
end

mutual
/-- `"".join(e.itertext())`: the element's text followed, for each
child, by the child's own itertext and then the child's tail.  Falsy
(empty or missing) text pieces contribute nothing either way. -/
def itertext : Element → String
  | .mk _ _ tx _ cs => (match tx with | some t => t | none => "") ++ itertextChildren cs

def itertextChildren : List Element → String
  | [] => ""
  | e :: rest =>
      itertext e ++ (match e.tailOf with | some s => s | none => "") ++ itertextChildren rest
end

/-- Children of `e` carrying tag `t`. -/
def childrenWithTag (e : Element) (t : String) : List Element :=
  e.childrenOf.filter (fun c => c.tagOf == t)

/-- `root.find(".//*{ns}metDecl/{ns}p")`: the ElementTree path compiles
to descendant-any-tag / child `metDecl` / child `p`; `find` returns the
first match in document order. -/
def findMetDeclP (root : Element) : Option Element :=
  ((elemDescendants root).flatMap
    (fun d => (childrenWithTag d "metDecl").flatMap
      (fun m => childrenWithTag m "p"))).head?

/-- `root.find(".//{ns}bibl/{ns}" + t)`: first `t`-child of a `bibl`
descendant, in document order. -/
def findBiblChild (root : Element) (t : String) : Option Element :=
  (((elemDescendants root).filter (fun d => d.tagOf == "bibl")).flatMap
    (fun b => childrenWithTag b t)).head?

/-! ## Canonical poem record (the dict shape built by `parse_xml`) -/

structure Line where
  line_number : String
  line_text : String
  metrical_pattern : String
  words : List Word
deriving DecidableEq, Repr

structure Stanza where
  stanza_number : String
  stanza_type : String
  lines : List Line
  stanza_text : String
deriving DecidableEq, Repr

/-- Canonical poem record.  `poem_title` and `author` are the `.text`
of the found elements, which Python leaves as `None` when the element
has no text, hence `Option String`. -/
structure Poem where
  poem_title : Option String
  author : Option String
  manually_checked : Bool
  stanzas : List Stanza
deriving DecidableEq, Repr

/-- Intermediate per-line data of `parse_xml`: the line text may still
be `None` here; `"\n".join(stanza_text)` raises `TypeError` at the end
of the stanza if it is. -/
structure RawLine where
  number : String
  lineText : Option String
  met : String
  words : List Word
deriving DecidableEq, Repr

/-- The body of `for line in line_group` (plsdo.py lines 38-65), for a
single child of the `lg` element.  Evaluation order of the source is
kept: `met` attribute (`KeyError`), `line[0]` (`IndexError`), the word
loop (`TypeError` on missing text, `IndexError` on empty text), then
the `n` attribute (`KeyError`). -/
def parseRawLine (line : Element) : Except PyErr RawLine :=
  match line.attr "met" with
  | none => .error .keyError
  | some met =>
    let mp := normalizeMetricalPattern met
    match line.childrenOf.head? with
    | none => .error .indexError
    | some firstChild =>
      let lineText := firstChild.textOf
      match ((elemDescendants line).filter (fun e => e.tagOf == "w")).mapM
          (fun w =>
            match w.textOf with
            | none => Except.error PyErr.typeError
            | some raw =>
              match parseWord raw with
              | none => Except.error PyErr.indexError
              | some word => Except.ok word) with
      | .error e => .error e
      | .ok words =>
        match line.attr "n" with
        | none => .error .keyError
        | some n => .ok { number := n, lineText := lineText, met := mp, words := words }

/-- The body of the stanza loop of `parse_xml` (plsdo.py lines 34-70)
for the `lg` element at 0-based position `idx`: the `type` attribute,
then every child as a line, then `"\n".join(stanza_text)` which raises
`TypeError` if some line text was `None`. -/
def parseStanza (idx : Nat) (lg : Element) : Except PyErr Stanza :=
  match lg.attr "type" with
  | none => .error .keyError
  | some poemType =>
    match lg.childrenOf.mapM parseRawLine with
    | .error e => .error e
    | .ok raws =>
      match raws.mapM (fun r =>
          match r.lineText with
          | some t => Except.ok t
          | none => Except.error PyErr.typeError) with
      | .error e => .error e
      | .ok texts =>
        .ok { stanza_number := toString (idx + 1)
              stanza_type := poemType
              lines := (raws.zip texts).map (fun rt =>
                { line_number := rt.1.number
                  line_text := rt.2
                  metrical_pattern := rt.1.met
                  words := rt.1.words })
              stanza_text := String.intercalate "\n" texts }

/-- `parse_xml` (plsdo.py lines 13-77) on a parsed document tree.
A missing `metDecl/p`, `bibl/title` or `bibl/author` element makes the
subsequent attribute access on `None` raise `AttributeError`. -/
def parse_xml (root : Element) : Except PyErr Poem :=
  match findMetDeclP root with
  | none => .error .attributeError
  | some pElem =>
    let analysisDescription := itertext pElem
    let lgs := (elemDescendants root).filter (fun e => e.tagOf == "lg")
    match findBiblChild root "title" with
    | none => .error .attributeError
    | some titleElem =>
      match findBiblChild root "author" with
      | none => .error .attributeError
      | some authorElem =>
        let manuallyChecked := strContains analysisDescription "manual"
        match lgs.enum.mapM (fun il => parseStanza il.1 il.2) with
        | .error e => .error e
        | .ok stanzas =>
          .ok { poem_title := titleElem.textOf
                author := authorElem.textOf
                manually_checked := manuallyChecked
                stanzas := stanzas }

/-- `get_features` (plsdo.py lines 80-90): parse every discovered
document; there is no per-file exception handling, so the first
failing document aborts the whole call. -/
def get_features (docs : List Element) : Except PyErr (List Poem) :=
  match docs with
  | [] => .ok []
  | d :: ds =>
    match parse_xml d with
    | .error e => .error e
    | .ok p =>
      match get_features ds with
      | .error e => .error e
      | .ok ps => .ok (p :: ps)

/-! ## Granularity reducers (utils.py lines 112-209)

The Python rows are dicts with a fixed key set; each row shape is
modelled by a structure.  Dict-merge order follows the source. -/

/-- Row of `get_stanza_features`. -/
structure StanzaRow where
  stanza_number : String
  manually_checked : Bool
  poem_title : Option String
  author : Option String
  stanza_text : String
  stanza_type : String
deriving DecidableEq, Repr

/-- Row of `get_line_features`.  For a line with a nonempty `words`
list the row holds `line_number`, `line_text` and `metrical_pattern`;
for a degenerate (word-less) line the whole line dict is copied
verbatim, which additionally carries its `words` key — recorded here
as `words = some []` (`none` = key absent). -/
structure LineRow where
  line_number : String
  line_text : String
  metrical_pattern : String
  words : Option (List Word)
  stanza_number : String
  manually_checked : Bool
  poem_title : Option String
  author : Option String
  stanza_text : String
  stanza_type : String
deriving DecidableEq, Repr

/-- Row of `get_word_features`: the looked-up line row's fields with
`stanza_text` popped and `word_text` added. -/
structure WordRow where
  word_text : String
  line_number : String
  line_text : String
  metrical_pattern : String
  words : Option (List Word)
  stanza_number : String
  manually_checked : Bool
  poem_title : Option String
  author : Option String
  stanza_type : String
deriving DecidableEq, Repr

/-- Row of `get_syllable_features`: `{"syllable": ..., "line_number":
int(...)}` updated with a whole word row.  The update overwrites the
freshly computed integer `line_number` with the word row's string
`line_number`, so only the string survives in the final dict. -/
structure SyllRow where
  syllable : String
  word_text : String
  line_number : String
  line_text : String
  metrical_pattern : String
  words : Option (List Word)
  stanza_number : String
  manually_checked : Bool
  poem_title : Option String
  author : Option String
  stanza_type : String
deriving DecidableEq, Repr

/-- `get_stanza_features` (utils.py lines 112-132). -/
def get_stanza_features (p : Poem) : List StanzaRow :=
  p.stanzas.map (fun st =>
    { stanza_number := st.stanza_number
      manually_checked := p.manually_checked
      poem_title := p.poem_title
      author := p.author
      stanza_text := st.stanza_text
      stanza_type := st.stanza_type })

/-- One line row: `{**line_features, **stanza}` (utils.py lines
147-155), where `line_features` is the whole line dict when
`line.get("words")` is falsy and the three line fields otherwise. -/
def lineRowOf (srow : StanzaRow) (line : Line) : LineRow :=
  { line_number := line.line_number
    line_text := line.line_text
    metrical_pattern := line.metrical_pattern
    words := if line.words.isEmpty then some line.words else none
    stanza_number := srow.stanza_number
    manually_checked := srow.manually_checked
    poem_title := srow.poem_title
    author := srow.author
    stanza_text := srow.stanza_text
    stanza_type := srow.stanza_type }

/-- `get_line_features` (utils.py lines 135-156).  The source pairs
each stanza row with `features["stanzas"][stanza_index]`; since
`get_stanza_features` yields exactly one row per stanza, that
enumerate-and-index pattern is the positional zip. -/
def get_line_features (p : Poem) : List LineRow :=
  ((get_stanza_features p).zip p.stanzas).flatMap
    (fun ss => ss.2.lines.map (lineRowOf ss.1))

/-- Word row built from a line row: `{"word_text": ...}` updated with
the line row, then `stanza_text` popped (utils.py lines 174-177). -/
def wordRowOf (lf : LineRow) (w : Word) : WordRow :=
  { word_text := w.word_text
    line_number := lf.line_number
    line_text := lf.line_text
    metrical_pattern := lf.metrical_pattern
    words := lf.words
    stanza_number := lf.stanza_number
    manually_checked := lf.manually_checked
    poem_title := lf.poem_title
    author := lf.author
    stanza_type := lf.stanza_type }

/-- Inner word loop of `get_word_features` for one line:
`all_lines_features[line_number - 1]` is looked up for every word
(IndexError when out of Python range). -/
def wordRowsOfLine (allLines : List LineRow) (n : Int) : List Word → Except PyErr (List WordRow)
  | [] => .ok []
  | w :: ws =>
    match pyListGet allLines (n - 1) with
    | none => .error .indexError
    | some lf =>
      match wordRowsOfLine allLines n ws with
      | .error e => .error e
      | .ok rest => .ok (wordRowOf lf w :: rest)

/-- Line loop of `get_word_features`: `int(line["line_number"])` is
evaluated for every line (ValueError on failure), even word-less ones. -/
def wordRowsOfLines (allLines : List LineRow) : List Line → Except PyErr (List WordRow)
  | [] => .ok []
  | line :: rest =>
    match pyInt line.line_number with
    | none => .error .valueError
    | some n =>
      match wordRowsOfLine allLines n line.words with
      | .error e => .error e
      | .ok rows1 =>
        match wordRowsOfLines allLines rest with
        | .error e => .error e
        | .ok rows2 => .ok (rows1 ++ rows2)

/-- The flattened line sequence a poem's reducers iterate over. -/
def poemLines (p : Poem) : List Line :=
  p.stanzas.flatMap Stanza.lines

/-- `get_word_features` (utils.py lines 159-179). -/
def get_word_features (p : Poem) : Except PyErr (List WordRow) :=
  wordRowsOfLines (get_line_features p) (poemLines p)

/-- Syllable row: `{"syllable": syl, "line_number": int(...)}` updated
with the word row `wr` (utils.py lines 201-206); the update replaces
the integer `line_number` with `wr`'s string one. -/
def syllRowOf (wr : WordRow) (syl : String) : SyllRow :=
  { syllable := syl
    word_text := wr.word_text
    line_number := wr.line_number
    line_text := wr.line_text
    metrical_pattern := wr.metrical_pattern
    words := wr.words
    stanza_number := wr.stanza_number
    manually_checked := wr.manually_checked
    poem_title := wr.poem_title
    author := wr.author
    stanza_type := wr.stanza_type }

/-- Syllable loop for one word:
`all_words_features[word_number]` is looked up once per syllable. -/
def syllRowsOfWord (allWords : List WordRow) (wn : Nat) : List String → Except PyErr (List SyllRow)
  | [] => .ok []
  | syl :: rest =>
    match pyListGet allWords (wn : Int) with
    | none => .error .indexError
    | some wr =>
      match syllRowsOfWord allWords wn rest with
      | .error e => .error e
      | .ok r => .ok (syllRowOf wr syl :: r)

/-- Word loop of `get_syllable_features`: the running counter
`word_number` increments once per word. -/
def syllRowsOfWords (allWords : List WordRow) (wn : Nat) : List Word → Except PyErr (List SyllRow × Nat)
  | [] => .ok ([], wn)
  | w :: ws =>
    match syllRowsOfWord allWords wn w.syllables with
    | .error e => .error e
    | .ok rows1 =>
      match syllRowsOfWords allWords (wn + 1) ws with
      | .error e => .error e
      | .ok rn => .ok (rows1 ++ rn.1, rn.2)

/-- Line loop of `get_syllable_features`: `int(line["line_number"])`
is evaluated per line; its value is stored into the fresh dict and
immediately overwritten by the word-row update, so only its success
matters. -/
def syllRowsOfLines (allWords : List WordRow) (wn : Nat) : List Line → Except PyErr (List SyllRow × Nat)
  | [] => .ok ([], wn)
  | line :: rest =>
    match pyInt line.line_number with
    | none => .error .valueError
    | some _ =>
      match syllRowsOfWords allWords wn line.words with
      | .error e => .error e
      | .ok rw1 =>
        match syllRowsOfLines allWords rw1.2 rest with
        | .error e => .error e
        | .ok rw2 => .ok (rw1.1 ++ rw2.1, rw2.2)

/-- `get_syllable_features` (utils.py lines 182-209). -/
def get_syllable_features (p : Poem) : Except PyErr (List SyllRow) :=
  match get_word_features p with
  | .error e => .error e
  | .ok allWords =>
    match syllRowsOfLines allWords 0 (poemLines p) with
    | .error e => .error e
    | .ok rw => .ok rw.1

/-! ## Corpus registry, `filter_features` and `get_corpora`

`CORPORA_SOURCES` is a list of corpus descriptors loaded from static
configuration; the fields the core consumes are modelled.  Logging is
modelled as a list of (level, message) pairs; archive download,
dynamic reader import and file writes are external collaborators: the
model takes `docsOf`, the XML documents found under a corpus folder
after the download step, as a parameter. -/

inductive LogLevel where
  | info
  | error
deriving DecidableEq, Repr

/-- One emitted log record. -/
abbrev Log := LogLevel × String

/-- The registry fields of one corpus entry consumed by the core. -/
structure CorpusProps where
  folder_name : String
  granularity : List String
  reader : String
deriving DecidableEq, Repr

structure Corpus where
  name : String
  properties : CorpusProps
deriving DecidableEq, Repr

/-- One result element appended to `corpora_features` by `get_corpora`:
either the granularity-filtered rows of one poem or the full canonical
records of one corpus. -/
inductive GranRow where
  | stanza (r : StanzaRow)
  | line (r : LineRow)
  | word (r : WordRow)
  | syll (r : SyllRow)
deriving DecidableEq, Repr

inductive CorporaItem where
  | rows (rs : List GranRow)
  | poems (ps : List Poem)
deriving DecidableEq, Repr

/-- `filter_features` (utils.py lines 212-236): re-reads the corpus's
declared granularities from the registry and dispatches on the
granularity name; any name outside the if-elif chain, a name not in
the declared list, or `None` leaves `filtered_features` empty. -/
def filter_features (registry : List Corpus) (p : Poem) (corpusIndex : Int)
    (granularity : Option String) : Except PyErr (List GranRow) :=
  match pyListGet registry corpusIndex with
  | none => .error .indexError
  | some corpus =>
    match granularity with
    | none => .ok []
    | some g =>
      if g ∈ corpus.properties.granularity then
        if g = "stanza" then .ok ((get_stanza_features p).map GranRow.stanza)
        else if g = "line" then .ok ((get_line_features p).map GranRow.line)
        else if g = "word" then
          match get_word_features p with
          | .error e => .error e
          | .ok rows => .ok (rows.map GranRow.word)
        else if g = "syllable" then
          match get_syllable_features p with
          | .error e => .error e
          | .ok rows => .ok (rows.map GranRow.syll)
        else .ok []
      else .ok []

/-- The log records emitted by `download_corpora` (utils.py lines
79-109): empty selection is reported; an out-of-range index logs and
stops the loop (the `IndexError` is caught inside); an already present
folder logs at info level; an actual download emits no log record (the
download and unzip are external I/O). -/
def downloadCorporaLogs (registry : List Corpus) (folders : List String) :
    List Int → List Log
  | [] => []
  | i :: rest =>
    match pyListGet registry i with
    | none => [(.error, "Index number not in corpora list")]
    | some c =>
      (if c.properties.folder_name ∈ folders then
        [(.info, "Corpus " ++ c.name ++ " already downloaded")]
      else []) ++ downloadCorporaLogs registry folders rest

/-- `download_corpora` with an empty selection logs an error instead of
iterating. -/
def download_corpora (registry : List Corpus) (folders : List String)
    (indices : List Int) : List Log :=
  if indices.isEmpty then [(.error, "No corpus selected. Nothing will be downloaded")]
  else downloadCorporaLogs registry folders indices

/-- The per-poem write loop of `get_corpora` (core.py lines 31-35):
`poem["author"].replace(...)` and `poem["poem_title"].title()` raise
`AttributeError` when the field is `None`; the writes themselves are
external I/O. -/
def writable : List Poem → Except PyErr Unit
  | [] => .ok ()
  | p :: ps =>
    match p.author, p.poem_title with
    | some _, some _ => writable ps
    | _, _ => .error .attributeError

/-- The granularity loop of `get_corpora` (core.py lines 40-48): one
`filter_features` call per poem, appending the nonempty results; an
exception keeps the items appended before it. -/
def granItems (registry : List Corpus) (i : Int) (g : String) :
    List Poem → List CorporaItem × Option PyErr
  | [] => ([], none)
  | p :: ps =>
    match filter_features registry p i (some g) with
    | .error e => ([], some e)
    | .ok rows =>
      let rest := granItems registry i g ps
      ((if rows.isEmpty then [] else [CorporaItem.rows rows]) ++ rest.1, rest.2)

/-- The body of `get_corpora`'s index loop for one index: items
appended, log records emitted, and the exception that escaped the
body, if any. -/
def processIndex (registry : List Corpus) (docsOf : String → List Element)
    (granularity : Option String) (i : Int) : List CorporaItem × List Log × Option PyErr :=
  match pyListGet registry i with
  | none => ([], [], some .indexError)
  | some corpus =>
    match get_features (docsOf corpus.properties.folder_name) with
    | .error e => ([], [], some e)
    | .ok features =>
      match writable features with
      | .error e => ([], [], some e)
      | .ok _ =>
        match granularity with
        | none => ([CorporaItem.poems features], [], none)
        | some g =>
          if g ∈ corpus.properties.granularity then
            let ie := granItems registry i g features
            (ie.1, [], ie.2)
          else
            ([], [(.error,
              "'" ++ g ++ "' granularity not found on '" ++ corpus.name ++ "' properties")],
              none)

/-- `get_corpora`'s `for index in corpus_indices` under
`try/except IndexError/finally: return` (core.py lines 24-57):
an `IndexError` anywhere in the body is logged and processing stops;
any other exception also stops the loop but the `return` in the
`finally` block suppresses it silently; in both cases everything
accumulated so far is returned. -/
def getCorporaLoop (registry : List Corpus) (docsOf : String → List Element)
    (granularity : Option String) : List Int → List CorporaItem × List Log
  | [] => ([], [])
  | i :: rest =>
    match processIndex registry docsOf granularity i with
    | (items, logs, none) =>
      let r := getCorporaLoop registry docsOf granularity rest
      (items ++ r.1, logs ++ r.2)
    | (items, logs, some PyErr.indexError) =>
      (items, logs ++ [(.error, "Index number not in corpora list")])
    | (items, logs, some _) => (items, logs)

/-- `get_corpora` (core.py lines 14-57): download step first, then the
index loop; the `finally: return corpora_features` guarantees a plain
(possibly empty) result list whatever happens, so the model is a total
function. -/
def get_corpora (registry : List Corpus) (folders : List String)
    (docsOf : String → List Element) (indices : List Int)
    (granularity : Option String) : List CorporaItem × List Log :=
  let dl := download_corpora registry folders indices
  let r := getCorporaLoop registry docsOf granularity indices
  (r.1, dl ++ r.2)

/-- Error-level log records of a run. -/
def errorLogs (logs : List Log) : List Log :=
  logs.filter (fun l => l.1 == LogLevel.error)

/-- Modelled from the spec: the export entry point's handling of a
missing local corpus directory.  The function `export_corpora`, which
the repository's test suite imports from `averell.core`, is not
present under `src/`; per the spec (§6, §7, §8: "Missing local corpus
directory yields an empty collection and a diagnostic naming the
folder; it must not raise to the caller"), a corpus whose folder does
not exist contributes nothing and logs one error naming the corpus
and its folder, an unregistered index logs "ID not in corpora list",
and a present folder is processed by the ordinary pipeline
(abstracted here as the `process` argument). -/
def export_corpora (registry : List Corpus) (folders : List String)
    (process : Corpus → List CorporaItem × List Log) :
    List Int → List CorporaItem × List Log
  | [] => ([], [])
  | i :: rest =>
    let r := export_corpora registry folders process rest
    match pyListGet registry i with
    | none => (r.1, [(.error, "ID not in corpora list")] ++ r.2)
    | some c =>
      if c.properties.folder_name ∈ folders then
        let pr := process c
        (pr.1 ++ r.1, pr.2 ++ r.2)
      else
        (r.1, [(.error,
          "\"" ++ c.name ++ "\" not found in \"" ++ c.properties.folder_name ++ "\" folder")]
          ++ r.2)

/-! ## Spec-side reference definitions and auxiliary predicates -/

/-- Reference definition following the (amended) spec wording of the
normalizer: after pipe removal, each maximal run of digits becomes one
`+`: a digit starts a run, the rest of the run is skipped wholesale;
any other character is kept unchanged. -/
def collapseRunsSpec : List Char → List Char
  | [] => []
  | c :: cs =>
    if c.isDigit then '+' :: collapseRunsSpec (cs.dropWhile Char.isDigit)
    else c :: collapseRunsSpec cs
termination_by l => l.length
decreasing_by
  · exact Nat.lt_succ_of_le (List.dropWhile_sublist Char.isDigit).length_le
  · simp

/-- Spec-worded normalizer: remove every pipe, then collapse each
maximal digit run of the resulting string to a single `+`. -/
def specNormalizeMetrical (met : String) : String :=
  ⟨collapseRunsSpec (met.data.filter (fun c => c ≠ '|'))⟩

/-- Total word count of a line sequence. -/
def totalWords (lines : List Line) : Nat :=
  (lines.map (fun l => l.words.length)).sum

/-- Decidable success condition of the word-level reduction: every
line's `line_number` parses as an integer, and every line that has at
least one word parses to a value in `[1 - N, N]` where `N` is the
number of line rows (values in `[1 - N, 0]` reach a row by Python's
negative-index wraparound rather than failing). -/
def wordTotalCond (p : Poem) : Bool :=
  (poemLines p).all (fun line =>
    match pyInt line.line_number with
    | none => false
    | some n =>
      line.words.isEmpty ||
        decide (1 - ((get_line_features p).length : Int) ≤ n ∧
          n ≤ ((get_line_features p).length : Int)))

/-- Placeholder line row for stating positional lookups that are known
to succeed. -/
def dummyLineRow : LineRow :=
  { line_number := "", line_text := "", metrical_pattern := "", words := none,
    stanza_number := "", manually_checked := false, poem_title := none,
    author := none, stanza_text := "", stanza_type := "" }

/-! ## Concrete inputs used by counterexamples and witnesses -/

/-- A well-formed document: `metDecl/p` description, `bibl` with title
and author, no line groups. -/
def goodDoc : Element :=
  .mk "TEI" [] none none
    [.mk "teiHeader" [] none none
      [.mk "metDecl" [] none none [.mk "p" [] (some "manually checked") none []],
       .mk "bibl" [] none none
         [.mk "title" [] (some "T") none [],
          .mk "author" [] (some "A") none []]]]

/-- A document missing all required header markup: `parse_xml` fails
on the `metDecl/p` lookup. -/
def badDoc : Element := .mk "TEI" [] none none []

/-- Poem whose single line is numbered `"0"`: `int("0") - 1 = -1`
indexes the line-row list from the end instead of raising. -/
def lineZero : Line :=
  { line_number := "0", line_text := "x", metrical_pattern := "+",
    words := [{ word_text := "w", syllables := ["w"], has_synalepha := none }] }

def poemZero : Poem :=
  { poem_title := some "T", author := some "A", manually_checked := false,
    stanzas := [{ stanza_number := "1", stanza_type := "t", lines := [lineZero],
                  stanza_text := "x" }] }

/-- Poem with two lines whose `n` attributes are swapped relative to
document order; its word rows pick up the other line's fields. -/
def lineSwapA : Line :=
  { line_number := "2", line_text := "first", metrical_pattern := "+",
    words := [{ word_text := "uno", syllables := ["u", "no"], has_synalepha := some true }] }

def lineSwapB : Line :=
  { line_number := "1", line_text := "second", metrical_pattern := "++",
    words := [{ word_text := "dos", syllables := ["dos"], has_synalepha := none }] }

def poemSwap : Poem :=
  { poem_title := some "T", author := some "A", manually_checked := true,
    stanzas := [{ stanza_number := "1", stanza_type := "t", lines := [lineSwapA, lineSwapB],
                  stanza_text := "first\nsecond" }] }

/-- Small poem with one stanza, one line, one word, all line numbers
in range. -/
def lineCtx : Line :=
  { line_number := "1", line_text := "hola", metrical_pattern := "+",
    words := [{ word_text := "hola", syllables := ["ho", "la"], has_synalepha := some true }] }

def poemCtx : Poem :=
  { poem_title := some "Title", author := some "Author", manually_checked := false,
    stanzas := [{ stanza_number := "1", stanza_type := "s", lines := [lineCtx],
                  stanza_text := "hola" }] }

/-- The word rows of `poemSwap`: each word carries the fields of the
line whose *number* matches, not of its parent line. -/
def poemSwapWordRows : List WordRow :=
  [{ word_text := "uno", line_number := "1", line_text := "second",
     metrical_pattern := "++", words := none, stanza_number := "1",
     manually_checked := true, poem_title := some "T", author := some "A",
     stanza_type := "t" },
   { word_text := "dos", line_number := "2", line_text := "first",
     metrical_pattern := "+", words := none, stanza_number := "1",
     manually_checked := true, poem_title := some "T", author := some "A",
     stanza_type := "t" }]

/-- One-corpus registry that declares only stanza granularity. -/
def registryA : List Corpus :=
  [{ name := "testing",
     properties := { folder_name := "averell", granularity := ["stanza"], reader := "r" } }]

/-- One-corpus registry whose folder is expected to be absent. -/
def registryB : List Corpus :=
  [{ name := "testing2",
     properties := { folder_name := "not-folder", granularity := ["stanza"], reader := "r" } }]

/-! ## Helper lemmas -/

theorem subDigitRuns_true_eq (cs : List Char) :
    subDigitRuns true cs = subDigitRuns false (cs.dropWhile Char.isDigit) := by
  induction cs with
  | nil => rfl
  | cons c cs ih =>
    by_cases h : c.isDigit
    · simp [subDigitRuns, h, List.dropWhile_cons, ih]
    · simp [subDigitRuns, h, List.dropWhile_cons]

theorem subDigitRuns_eq_collapse_aux :
    ∀ (n : Nat) (l : List Char), l.length ≤ n →
      subDigitRuns false l = collapseRunsSpec l := by
  intro n
  induction n with
  | zero =>
    intro l hl
    rw [List.length_eq_zero.mp (Nat.le_zero.mp hl)]
    simp [subDigitRuns, collapseRunsSpec]
  | succ n ih =>
    intro l hl
    match l with
    | [] => simp [subDigitRuns, collapseRunsSpec]
    | c :: cs =>
      by_cases h : c.isDigit
      · rw [show subDigitRuns false (c :: cs) = '+' :: subDigitRuns true cs by
            simp [subDigitRuns, h]]
        rw [subDigitRuns_true_eq]
        rw [ih _ (le_trans (List.dropWhile_sublist Char.isDigit).length_le
          (Nat.le_of_succ_le_succ hl))]
        simp [collapseRunsSpec, h]
      · rw [show subDigitRuns false (c :: cs) = c :: subDigitRuns false cs by
            simp [subDigitRuns, h]]
        rw [ih _ (Nat.le_of_succ_le_succ hl)]
        simp [collapseRunsSpec, h]

theorem subDigitRuns_eq_collapse (l : List Char) :
    subDigitRuns false l = collapseRunsSpec l :=
  subDigitRuns_eq_collapse_aux l.length l le_rfl

/-! ## Claim C1 -/

/-- C1 (counterexample): the normalizer applied to `"2|3"` yields
`"+"`, not `"++"` as the claim states — the pipe is removed first, so
the two digit runs merge into one before collapsing. -/
theorem normalize_metrical_two_pipe_three :
    normalizeMetricalPattern "2|3" = "+" ∧ normalizeMetricalPattern "2|3" ≠ "++" := by
  exact ⟨by decide, by decide⟩

/-- C1 (amended): the normalizer removes all pipe characters and then
collapses every maximal run of digits of the resulting string to a
single `+`, leaving all other characters unchanged (so digit runs
separated only by pipes merge); in particular `"2|3"` normalizes to
`"+"`.  Stated as equality with the spec-worded reference
`specNormalizeMetrical`. -/
theorem normalize_metrical_removes_pipes_then_collapses :
    (∀ met : String, normalizeMetricalPattern met = specNormalizeMetrical met) ∧
    normalizeMetricalPattern "2|3" = "+" := by
  refine ⟨fun met => ?_, by decide⟩
  unfold normalizeMetricalPattern specNormalizeMetrical
  rw [subDigitRuns_eq_collapse]

/-! ## Claim C2 -/

/-- C2 (counterexample): for the raw word text `"a|"` the produced
word record's `word_text` is `"a"`, whose last character `'a'` is in
the vowel set, yet `has_synalepha` is absent — the detector looked at
the raw text's last character `'|'` instead. -/
theorem synalepha_raw_text_cex :
    parseWord "a|" =
      some { word_text := "a", syllables := ["a"], has_synalepha := none } ∧
    'a' ∈ synalephaVowels := by
  exact ⟨by decide, by decide⟩

/-- C2 (amended): the `has_synalepha` field is present (with value
true) iff the last character of the word's raw source text — before
the syllable-boundary split, not of the joined `word_text` — is one of
the vowels, and it is never present as false. -/
theorem has_synalepha_iff_raw_last_vowel (raw : String) (c : Char)
    (h : raw.data.getLast? = some c) :
    (parseWord raw).map Word.has_synalepha =
      some (if c ∈ synalephaVowels then some true else none) ∧
    ∀ w, parseWord raw = some w → w.has_synalepha ≠ some false := by
  unfold parseWord
  rw [h]
  refine ⟨rfl, ?_⟩
  intro w hw
  simp only [Option.some.injEq] at hw
  rw [← hw]
  by_cases hc : c ∈ synalephaVowels <;> simp [hc]

/-- Witness for C2 (amended) at the concrete raw text `"día"`. -/
theorem has_synalepha_iff_raw_last_vowel_witness :
    (parseWord "día").map Word.has_synalepha =
      some (if 'a' ∈ synalephaVowels then some true else none) ∧
    ∀ w, parseWord "día" = some w → w.has_synalepha ≠ some false :=
  has_synalepha_iff_raw_last_vowel "día" 'a' (by decide)

/-! ## Claim C9 -/

/-- C9: for every word record the reader produces, concatenating its
`syllables` in order yields exactly its `word_text`. -/
theorem word_text_joins_syllables (raw : String) (w : Word)
    (h : parseWord raw = some w) : String.join w.syllables = w.word_text := by
  unfold parseWord at h
  cases hl : raw.data.getLast? with
  | none => rw [hl] at h; cases h
  | some c =>
    rw [hl] at h
    simp only [Option.some.injEq] at h
    rw [← h]

/-- Witness for C9 at the concrete raw text `"ro|sa"`. -/
theorem word_text_joins_syllables_witness :
    String.join ["ro", "sa"] = "rosa" :=
  word_text_joins_syllables "ro|sa"
    { word_text := "rosa", syllables := ["ro", "sa"], has_synalepha := some true }
    (by decide)

/-! ## Claim C3 -/

theorem pyListGet_nonneg {α : Type} (l : List α) (i : Int) (h : 0 ≤ i) :
    pyListGet l i = l.get? i.toNat := by
  unfold pyListGet
  rw [if_pos h]

theorem get?_isSome_iff {α : Type} (l : List α) (n : Nat) :
    (l.get? n).isSome = true ↔ n < l.length := by
  rw [Option.isSome_iff_ne_none, ne_eq, List.get?_eq_none]
  omega

theorem wordRowsOfLine_closed (L : List LineRow) (n : Int) (ws : List Word)
    (rows : List WordRow) (hok : wordRowsOfLine L n ws = .ok rows) (hn : 1 ≤ n) :
    rows = ws.map (fun w => wordRowOf ((L.get? (n - 1).toNat).getD dummyLineRow) w) := by
  induction ws generalizing rows with
  | nil =>
    simp only [wordRowsOfLine, Except.ok.injEq] at hok
    subst hok
    rfl
  | cons w ws ih =>
    simp only [wordRowsOfLine] at hok
    cases hlf : pyListGet L (n - 1) with
    | none => simp only [hlf] at hok; exact Except.noConfusion hok
    | some lf =>
      simp only [hlf] at hok
      cases hrest : wordRowsOfLine L n ws with
      | error e2 => simp only [hrest] at hok; exact Except.noConfusion hok
      | ok rest =>
        simp only [hrest, Except.ok.injEq] at hok
        subst hok
        have hget : L.get? (n - 1).toNat = some lf := by
          rw [← pyListGet_nonneg L (n - 1) (by omega)]
          exact hlf
        rw [List.map_cons, ← ih rest hrest, hget]
        rfl

theorem wordRowsOfLines_closed (L : List LineRow) (lines : List Line)
    (rows : List WordRow) (hok : wordRowsOfLines L lines = .ok rows)
    (hpos : ∀ line ∈ lines, 1 ≤ (pyInt line.line_number).getD 1) :
    rows = lines.flatMap (fun line => line.words.map (fun w =>
      wordRowOf ((L.get? (((pyInt line.line_number).getD 1) - 1).toNat).getD
        dummyLineRow) w)) := by
  induction lines generalizing rows with
  | nil =>
    simp only [wordRowsOfLines, Except.ok.injEq] at hok
    subst hok
    rfl
  | cons line rest ih =>
    simp only [wordRowsOfLines] at hok
    cases hn : pyInt line.line_number with
    | none => simp only [hn] at hok; exact Except.noConfusion hok
    | some n =>
      simp only [hn] at hok
      cases hrows1 : wordRowsOfLine L n line.words with
      | error e2 => simp only [hrows1] at hok; exact Except.noConfusion hok
      | ok rows1 =>
        simp only [hrows1] at hok
        cases hrows2 : wordRowsOfLines L rest with
        | error e2 => simp only [hrows2] at hok; exact Except.noConfusion hok
        | ok rows2 =>
          simp only [hrows2, Except.ok.injEq] at hok
          subst hok
          have h1 : 1 ≤ n := by
            have := hpos line (List.mem_cons_self line rest)
            rwa [hn, Option.getD_some] at this
          rw [List.flatMap_cons, hn, Option.getD_some,
            ← wordRowsOfLine_closed L n line.words rows1 hrows1 h1,
            ← ih rows2 hrows2 (fun l hl => hpos l (List.mem_cons_of_mem line hl))]

/-- C3: whenever the word-level reduction succeeds and the parsed line
numbers are at least 1, every word yields one row in document order,
built from the line row at position `int(line_number) - 1` of the
poem's full line-row sequence (all stanzas flattened) with
`stanza_text` removed and `word_text` added — linkage is by the parsed
line-number string as a 1-based index, not by the word's parent line. -/
theorem word_rows_link_by_line_number (p : Poem) (rows : List WordRow)
    (hok : get_word_features p = .ok rows)
    (hpos : ∀ line ∈ poemLines p, 1 ≤ (pyInt line.line_number).getD 1) :
    rows = (poemLines p).flatMap (fun line => line.words.map (fun w =>
      wordRowOf (((get_line_features p).get?
        (((pyInt line.line_number).getD 1) - 1).toNat).getD dummyLineRow) w)) :=
  wordRowsOfLines_closed (get_line_features p) (poemLines p) rows hok hpos

/-- Witness for C3 at `poemSwap`, whose two line numbers are swapped
relative to document order: each word row carries the fields of the
*numbered* line, not of its parent. -/
theorem word_rows_link_by_line_number_witness :
    poemSwapWordRows = (poemLines poemSwap).flatMap (fun line => line.words.map (fun w =>
      wordRowOf (((get_line_features poemSwap).get?
        (((pyInt line.line_number).getD 1) - 1).toNat).getD dummyLineRow) w)) :=
  word_rows_link_by_line_number poemSwap poemSwapWordRows rfl (by decide)

/-! ## Totality lemmas for the word and syllable reductions -/

theorem pyListGet_isSome {α : Type} (l : List α) (i : Int) :
    (pyListGet l i).isSome = true ↔
      (-(l.length : Int) ≤ i ∧ i < (l.length : Int)) := by
  unfold pyListGet
  by_cases h : 0 ≤ i
  · rw [if_pos h, get?_isSome_iff]; omega
  · rw [if_neg h]
    by_cases h2 : 0 ≤ i + l.length
    · rw [if_pos h2, get?_isSome_iff]; omega
    · rw [if_neg h2]; simp; omega

theorem of_wordRowsOfLine_ok (L : List LineRow) (n : Int) (ws : List Word)
    (rows : List WordRow) (h : wordRowsOfLine L n ws = .ok rows) :
    ws = [] ∨ (pyListGet L (n - 1)).isSome = true := by
  cases ws with
  | nil => exact Or.inl rfl
  | cons w ws =>
    refine Or.inr ?_
    simp only [wordRowsOfLine] at h
    cases hlf : pyListGet L (n - 1) with
    | none => simp only [hlf] at h; exact Except.noConfusion h
    | some lf => rfl

theorem wordRowsOfLine_ok_of (L : List LineRow) (n : Int) (ws : List Word)
    (hc : ws = [] ∨ (pyListGet L (n - 1)).isSome = true) :
    ∃ rows, wordRowsOfLine L n ws = .ok rows := by
  induction ws with
  | nil => exact ⟨[], rfl⟩
  | cons w ws ih =>
    rcases hc with hc | hc
    · exact absurd hc (by simp)
    · obtain ⟨lf, hlf⟩ := Option.isSome_iff_exists.mp hc
      obtain ⟨rest, hrest⟩ := ih (Or.inr hc)
      exact ⟨wordRowOf lf w :: rest, by simp [wordRowsOfLine, hlf, hrest]⟩

theorem of_wordRowsOfLines_ok (L : List LineRow) (lines : List Line)
    (rows : List WordRow) (h : wordRowsOfLines L lines = .ok rows) :
    ∀ line ∈ lines, ∃ n, pyInt line.line_number = some n ∧
      (line.words = [] ∨ (pyListGet L (n - 1)).isSome = true) := by
  induction lines generalizing rows with
  | nil => intro line hl; cases hl
  | cons line rest ih =>
    intro l hl
    simp only [wordRowsOfLines] at h
    cases hn : pyInt line.line_number with
    | none => simp only [hn] at h; exact Except.noConfusion h
    | some n =>
      simp only [hn] at h
      cases h1 : wordRowsOfLine L n line.words with
      | error e2 => simp only [h1] at h; exact Except.noConfusion h
      | ok rows1 =>
        simp only [h1] at h
        cases h2 : wordRowsOfLines L rest with
        | error e2 => simp only [h2] at h; exact Except.noConfusion h
        | ok rows2 =>
          rcases List.mem_cons.mp hl with rfl | hm
          · exact ⟨n, hn, of_wordRowsOfLine_ok L n l.words rows1 h1⟩
          · exact ih rows2 h2 l hm

theorem wordRowsOfLines_ok_of (L : List LineRow) (lines : List Line)
    (h : ∀ line ∈ lines, ∃ n, pyInt line.line_number = some n ∧
      (line.words = [] ∨ (pyListGet L (n - 1)).isSome = true)) :
    ∃ rows, wordRowsOfLines L lines = .ok rows := by
  induction lines with
  | nil => exact ⟨[], rfl⟩
  | cons line rest ih =>
    obtain ⟨n, hn, hc⟩ := h line (List.mem_cons_self line rest)
    obtain ⟨rows1, h1⟩ := wordRowsOfLine_ok_of L n line.words hc
    obtain ⟨rows2, h2⟩ := ih (fun l hl => h l (List.mem_cons_of_mem line hl))
    exact ⟨rows1 ++ rows2, by simp [wordRowsOfLines, hn, h1, h2]⟩

theorem wordRowsOfLine_length (L : List LineRow) (n : Int) (ws : List Word)
    (rows : List WordRow) (h : wordRowsOfLine L n ws = .ok rows) :
    rows.length = ws.length := by
  induction ws generalizing rows with
  | nil =>
    simp only [wordRowsOfLine, Except.ok.injEq] at h
    subst h; rfl
  | cons w ws ih =>
    simp only [wordRowsOfLine] at h
    cases hlf : pyListGet L (n - 1) with
    | none => simp only [hlf] at h; exact Except.noConfusion h
    | some lf =>
      simp only [hlf] at h
      cases hrest : wordRowsOfLine L n ws with
      | error e2 => simp only [hrest] at h; exact Except.noConfusion h
      | ok rest =>
        simp only [hrest, Except.ok.injEq] at h
        subst h
        simp [ih rest hrest]

theorem wordRowsOfLines_length (L : List LineRow) (lines : List Line)
    (rows : List WordRow) (h : wordRowsOfLines L lines = .ok rows) :
    rows.length = totalWords lines := by
  induction lines generalizing rows with
  | nil =>
    simp only [wordRowsOfLines, Except.ok.injEq] at h
    subst h; rfl
  | cons line rest ih =>
    simp only [wordRowsOfLines] at h
    cases hn : pyInt line.line_number with
    | none => simp only [hn] at h; exact Except.noConfusion h
    | some n =>
      simp only [hn] at h
      cases h1 : wordRowsOfLine L n line.words with
      | error e2 => simp only [h1] at h; exact Except.noConfusion h
      | ok rows1 =>
        simp only [h1] at h
        cases h2 : wordRowsOfLines L rest with
        | error e2 => simp only [h2] at h; exact Except.noConfusion h
        | ok rows2 =>
          simp only [h2, Except.ok.injEq] at h
          subst h
          simp [totalWords, wordRowsOfLine_length L n line.words rows1 h1,
            ih rows2 h2, totalWords]

theorem syllRowsOfWord_ok (A : List WordRow) (wn : Nat) (syls : List String)
    (h : wn < A.length) : ∃ rows, syllRowsOfWord A wn syls = .ok rows := by
  induction syls with
  | nil => exact ⟨[], rfl⟩
  | cons syl rest ih =>
    have hs : (pyListGet A (wn : Int)).isSome = true := by
      rw [pyListGet_isSome]; omega
    obtain ⟨wr, hwr⟩ := Option.isSome_iff_exists.mp hs
    obtain ⟨rows1, h1⟩ := ih
    exact ⟨syllRowOf wr syl :: rows1, by simp [syllRowsOfWord, hwr, h1]⟩

theorem syllRowsOfWords_ok (A : List WordRow) (ws : List Word) :
    ∀ (wn : Nat), wn + ws.length ≤ A.length →
      ∃ rows, syllRowsOfWords A wn ws = .ok (rows, wn + ws.length) := by
  induction ws with
  | nil => intro wn _; exact ⟨[], rfl⟩
  | cons w ws ih =>
    intro wn h
    obtain ⟨rows1, h1⟩ := syllRowsOfWord_ok A wn w.syllables (by simp at h; omega)
    obtain ⟨rows2, h2⟩ := ih (wn + 1) (by simp at h ⊢; omega)
    refine ⟨rows1 ++ rows2, ?_⟩
    have hc : wn + 1 + ws.length = wn + (w :: ws).length := by simp; omega
    simp [syllRowsOfWords, h1, h2, hc]

theorem syllRowsOfLines_ok (A : List WordRow) (lines : List Line)
    (hn : ∀ line ∈ lines, (pyInt line.line_number).isSome = true) :
    ∀ (wn : Nat), wn + totalWords lines ≤ A.length →
      ∃ rows, syllRowsOfLines A wn lines = .ok (rows, wn + totalWords lines) := by
  induction lines with
  | nil => intro wn _; exact ⟨[], rfl⟩
  | cons line rest ih =>
    intro wn h
    obtain ⟨n, hpn⟩ := Option.isSome_iff_exists.mp
      (hn line (List.mem_cons_self line rest))
    have htot : totalWords (line :: rest) = line.words.length + totalWords rest := by
      simp [totalWords]
    obtain ⟨rows1, h1⟩ := syllRowsOfWords_ok A line.words wn (by omega)
    obtain ⟨rows2, h2⟩ := ih (fun l hl => hn l (List.mem_cons_of_mem line hl))
      (wn + line.words.length) (by omega)
    refine ⟨rows1 ++ rows2, ?_⟩
    have hc : wn + line.words.length + totalWords rest =
        wn + totalWords (line :: rest) := by omega
    simp [syllRowsOfLines, hpn, h1, h2, hc]

/-! ## Claim C10 -/

/-- C10 (counterexample): a poem whose only line is numbered `"0"` —
outside `[1, N]` — does not make `get_word_features` fail: the index
`int("0") - 1 = -1` wraps around to the last line row and a word row
is produced. -/
theorem word_reduction_out_of_range_succeeds :
    pyInt "0" = some 0 ∧
    get_word_features poemZero =
      .ok [{ word_text := "w", line_number := "0", line_text := "x",
             metrical_pattern := "+", words := none, stanza_number := "1",
             manually_checked := false, poem_title := some "T",
             author := some "A", stanza_type := "t" }] := by
  exact ⟨rfl, rfl⟩

/-- C10 (amended): the word-level reduction succeeds exactly when
every line's `line_number` parses as an integer and every line with at
least one word parses to a value in `[1 - N, N]` (`N` = number of line
rows); a value in `[1 - N, 0]` does not fail but wraps around to index
the line rows from the end, and only non-parsing strings or, for lines
with words, values outside `[1 - N, N]` make it fail.  The syllable
reduction succeeds exactly when the word reduction does. -/
theorem word_syllable_reduction_totality (p : Poem) :
    (exOk (get_word_features p) = true ↔ wordTotalCond p = true) ∧
    exOk (get_syllable_features p) = exOk (get_word_features p) := by
  constructor
  · rw [wordTotalCond, List.all_eq_true]
    constructor
    · intro h line hline
      cases hok : get_word_features p with
      | error e => rw [hok] at h; exact absurd h (by simp [exOk])
      | ok rows =>
        obtain ⟨n, hn, hc⟩ :=
          of_wordRowsOfLines_ok (get_line_features p) (poemLines p) rows hok line hline
        rw [hn]
        rcases hc with hc | hc
        · simp [hc]
        · rw [pyListGet_isSome] at hc
          have : (1 - ((get_line_features p).length : Int) ≤ n ∧
              n ≤ ((get_line_features p).length : Int)) := by omega
          simp [this]
    · intro h
      have hcond : ∀ line ∈ poemLines p, ∃ n, pyInt line.line_number = some n ∧
          (line.words = [] ∨
            (pyListGet (get_line_features p) (n - 1)).isSome = true) := by
        intro line hline
        have hb := h line hline
        cases hn : pyInt line.line_number with
        | none => rw [hn] at hb; exact absurd hb (by simp)
        | some n =>
          rw [hn] at hb
          refine ⟨n, rfl, ?_⟩
          rcases Bool.or_eq_true _ _ |>.mp hb with hb2 | hb2
          · exact Or.inl (by simpa using hb2)
          · refine Or.inr ?_
            rw [pyListGet_isSome]
            have := of_decide_eq_true hb2
            omega
      obtain ⟨rows, hrows⟩ := wordRowsOfLines_ok_of (get_line_features p)
        (poemLines p) hcond
      rw [get_word_features, hrows]
      rfl
  · cases hw : get_word_features p with
    | error e =>
      simp only [get_syllable_features, hw]
      rfl
    | ok allWords =>
      have hnums : ∀ line ∈ poemLines p, (pyInt line.line_number).isSome = true := by
        intro line hl
        obtain ⟨n, hn, _⟩ :=
          of_wordRowsOfLines_ok (get_line_features p) (poemLines p) allWords hw line hl
        rw [hn]; rfl
      have hlen := wordRowsOfLines_length (get_line_features p) (poemLines p)
        allWords hw
      obtain ⟨rows, hrows⟩ := syllRowsOfLines_ok allWords (poemLines p) hnums 0
        (by omega)
      simp only [get_syllable_features, hw, hrows]
      rfl

/-- Witness for C10 (amended): at `poemCtx` the success condition
holds and the reduction indeed succeeds. -/
theorem word_syllable_reduction_totality_witness :
    exOk (get_word_features poemCtx) = true :=
  (word_syllable_reduction_totality poemCtx).1.mpr (by decide)

/-! ## Claim C6 -/

/-- C6 (counterexample): with a failing document next to a well-formed
one in the same directory, `get_features` returns the failure and no
poem records at all, although the sibling document on its own parses
successfully. -/
theorem reader_aborts_on_sibling_failure :
    get_features [badDoc, goodDoc] = .error .attributeError ∧
    parse_xml goodDoc =
      .ok { poem_title := some "T", author := some "A",
            manually_checked := true, stanzas := [] } := by
  exact ⟨rfl, rfl⟩

/-- C6 (amended): a parse failure in any one document aborts the whole
`get_features` call — no records for sibling documents are returned;
there is no per-document isolation. -/
theorem get_features_aborts_on_any_failure (docs : List Element) (d : Element)
    (e : PyErr) (hd : d ∈ docs) (he : parse_xml d = .error e) :
    exOk (get_features docs) = false := by
  induction docs with
  | nil => cases hd
  | cons x xs ih =>
    rcases List.mem_cons.mp hd with rfl | hm
    · simp [get_features, he, exOk]
    · cases hx : parse_xml x with
      | error e2 => simp [get_features, hx, exOk]
      | ok q =>
        have hrec := ih hm
        cases hg : get_features xs with
        | error e2 => simp [get_features, hx, hg, exOk]
        | ok ps => rw [hg] at hrec; simp [exOk] at hrec

/-- Witness for C6 (amended) at the concrete two-document directory. -/
theorem get_features_aborts_on_any_failure_witness :
    exOk (get_features [badDoc, goodDoc]) = false :=
  get_features_aborts_on_any_failure [badDoc, goodDoc] badDoc .attributeError
    (by simp) rfl

/-! ## Claim C7 -/

/-- C7 (counterexample): `get_corpora` itself, run with the one-corpus
registry whose folder `"not-folder"` does not exist (so the directory
scan finds no documents), emits no log record at all — in particular
no diagnostic naming the missing folder — and returns the non-empty
item list `[poems []]` rather than an empty collection: the
missing-folder handling the claim attributes to `get_corpora` is not
in it. -/
theorem get_corpora_missing_folder_no_diagnostic :
    get_corpora registryB [] (fun _ => []) [0] none =
      ([CorporaItem.poems []], []) ∧
    (get_corpora registryB [] (fun _ => []) [0] none).2 = [] ∧
    (get_corpora registryB [] (fun _ => []) [0] none).1 ≠ [] := by
  exact ⟨rfl, rfl, by decide⟩

/-- C7 (amended): the missing-directory handling lives in the export
entry point `export_corpora` (absent from the parsed sources, modelled
from the spec), not in `get_corpora`: a requested corpus whose local
directory does not exist contributes an empty collection and exactly
one diagnostic naming the corpus and its missing folder; the export
entry point is a total function, so nothing is raised to the caller.
`get_corpora` itself emits no folder diagnostic and simply proceeds. -/
theorem export_missing_folder_empty_and_logged (registry : List Corpus)
    (folders : List String) (process : Corpus → List CorporaItem × List Log)
    (i : Int) (corpus : Corpus)
    (hc : pyListGet registry i = some corpus)
    (hm : corpus.properties.folder_name ∉ folders) :
    export_corpora registry folders process [i] =
      ([], [(.error, "\"" ++ corpus.name ++ "\" not found in \"" ++
        corpus.properties.folder_name ++ "\" folder")]) := by
  simp [export_corpora, hc, hm]

/-- Witness for C7 at a concrete one-corpus registry with no folders
present. -/
theorem export_missing_folder_empty_and_logged_witness :
    export_corpora registryB [] (fun _ => ([], [])) [0] =
      ([], [(.error, "\"" ++ "testing2" ++ "\" not found in \"" ++
        "not-folder" ++ "\" folder")]) :=
  export_missing_folder_empty_and_logged registryB [] (fun _ => ([], [])) 0
    { name := "testing2",
      properties := { folder_name := "not-folder", granularity := ["stanza"], reader := "r" } }
    (by decide) (by decide)

/-! ## Claim C8 -/

/-- C8: requesting an index outside the registry returns an empty
result collection with an "Index number not in corpora list"
diagnostic among the emitted log records; `get_corpora` is a total
function (the `finally: return` swallows every exception), so a plain
collection is always returned. -/
theorem get_corpora_unknown_id (registry : List Corpus) (folders : List String)
    (docsOf : String → List Element) (i : Int) (g : Option String)
    (hbad : pyListGet registry i = none) :
    (get_corpora registry folders docsOf [i] g).1 = [] ∧
    (LogLevel.error, "Index number not in corpora list") ∈
      (get_corpora registry folders docsOf [i] g).2 := by
  simp [get_corpora, download_corpora, downloadCorporaLogs, getCorporaLoop,
    processIndex, hbad]

/-- Witness for C8 at the empty registry. -/
theorem get_corpora_unknown_id_witness :
    (get_corpora [] [] (fun _ => []) [0] none).1 = [] ∧
    (LogLevel.error, "Index number not in corpora list") ∈
      (get_corpora [] [] (fun _ => []) [0] none).2 :=
  get_corpora_unknown_id [] [] (fun _ => []) 0 none (by decide)

/-! ## Membership lemmas for the reducers -/

theorem pyListGet_mem {α : Type} (l : List α) (i : Int) (a : α)
    (h : pyListGet l i = some a) : a ∈ l := by
  unfold pyListGet at h
  split at h
  · exact List.get?_mem h
  · split at h
    · exact List.get?_mem h
    · cases h

theorem stanza_row_context (p : Poem) (r : StanzaRow)
    (h : r ∈ get_stanza_features p) :
    r.author = p.author ∧ r.poem_title = p.poem_title ∧
      r.manually_checked = p.manually_checked := by
  simp only [get_stanza_features, List.mem_map] at h
  obtain ⟨st, _, rfl⟩ := h
  exact ⟨rfl, rfl, rfl⟩

theorem line_row_shape (p : Poem) (r : LineRow)
    (h : r ∈ get_line_features p) :
    ∃ srow ∈ get_stanza_features p, ∃ line, r = lineRowOf srow line := by
  simp only [get_line_features, List.mem_flatMap, List.mem_map] at h
  obtain ⟨ss, hz, line, _, rfl⟩ := h
  exact ⟨ss.1, (List.of_mem_zip hz).1, line, rfl⟩

theorem line_row_context (p : Poem) (r : LineRow)
    (h : r ∈ get_line_features p) :
    r.author = p.author ∧ r.poem_title = p.poem_title ∧
      r.manually_checked = p.manually_checked := by
  obtain ⟨srow, hs, line, rfl⟩ := line_row_shape p r h
  obtain ⟨h1, h2, h3⟩ := stanza_row_context p srow hs
  exact ⟨h1, h2, h3⟩

theorem mem_wordRowsOfLine (L : List LineRow) (n : Int) (ws : List Word)
    (rows : List WordRow) (h : wordRowsOfLine L n ws = .ok rows)
    (r : WordRow) (hr : r ∈ rows) :
    ∃ lf ∈ L, ∃ w, r = wordRowOf lf w := by
  induction ws generalizing rows with
  | nil =>
    simp only [wordRowsOfLine, Except.ok.injEq] at h
    subst h
    cases hr
  | cons w ws ih =>
    simp only [wordRowsOfLine] at h
    cases hlf : pyListGet L (n - 1) with
    | none => simp only [hlf] at h; exact Except.noConfusion h
    | some lf =>
      simp only [hlf] at h
      cases hrest : wordRowsOfLine L n ws with
      | error e2 => simp only [hrest] at h; exact Except.noConfusion h
      | ok rest =>
        simp only [hrest] at h
        simp only [Except.ok.injEq] at h
        subst h
        rcases List.mem_cons.mp hr with rfl | hm
        · exact ⟨lf, pyListGet_mem L (n - 1) lf hlf, w, rfl⟩
        · exact ih rest hrest hm

theorem mem_wordRowsOfLines (L : List LineRow) (lines : List Line)
    (rows : List WordRow) (h : wordRowsOfLines L lines = .ok rows)
    (r : WordRow) (hr : r ∈ rows) :
    ∃ lf ∈ L, ∃ w, r = wordRowOf lf w := by
  induction lines generalizing rows with
  | nil =>
    simp only [wordRowsOfLines, Except.ok.injEq] at h
    subst h
    cases hr
  | cons line rest ih =>
    simp only [wordRowsOfLines] at h
    cases hn : pyInt line.line_number with
    | none => simp only [hn] at h; exact Except.noConfusion h
    | some n =>
      simp only [hn] at h
      cases hrows1 : wordRowsOfLine L n line.words with
      | error e2 => simp only [hrows1] at h; exact Except.noConfusion h
      | ok rows1 =>
        simp only [hrows1] at h
        cases hrows2 : wordRowsOfLines L rest with
        | error e2 => simp only [hrows2] at h; exact Except.noConfusion h
        | ok rows2 =>
          simp only [hrows2] at h
          simp only [Except.ok.injEq] at h
          subst h
          rcases List.mem_append.mp hr with h1 | h2
          · exact mem_wordRowsOfLine L n line.words rows1 hrows1 r h1
          · exact ih rows2 hrows2 h2

theorem mem_syllRowsOfWord (A : List WordRow) (wn : Nat) (syls : List String)
    (rows : List SyllRow) (h : syllRowsOfWord A wn syls = .ok rows)
    (r : SyllRow) (hr : r ∈ rows) :
    ∃ wr ∈ A, ∃ s, r = syllRowOf wr s := by
  induction syls generalizing rows with
  | nil =>
    simp only [syllRowsOfWord, Except.ok.injEq] at h
    subst h
    cases hr
  | cons syl rest ih =>
    simp only [syllRowsOfWord] at h
    cases hwr : pyListGet A (wn : Int) with
    | none => simp only [hwr] at h; exact Except.noConfusion h
    | some wr =>
      simp only [hwr] at h
      cases hrows1 : syllRowsOfWord A wn rest with
      | error e2 => simp only [hrows1] at h; exact Except.noConfusion h
      | ok rows1 =>
        simp only [hrows1] at h
        simp only [Except.ok.injEq] at h
        subst h
        rcases List.mem_cons.mp hr with rfl | hm
        · exact ⟨wr, pyListGet_mem A (wn : Int) wr hwr, syl, rfl⟩
        · exact ih rows1 hrows1 hm

theorem mem_syllRowsOfWords (A : List WordRow) (wn : Nat) (ws : List Word)
    (out : List SyllRow × Nat) (h : syllRowsOfWords A wn ws = .ok out)
    (r : SyllRow) (hr : r ∈ out.1) :
    ∃ wr ∈ A, ∃ s, r = syllRowOf wr s := by
  induction ws generalizing wn out with
  | nil =>
    simp only [syllRowsOfWords, Except.ok.injEq] at h
    subst h
    cases hr
  | cons w ws ih =>
    simp only [syllRowsOfWords] at h
    cases hrows1 : syllRowsOfWord A wn w.syllables with
    | error e2 => simp only [hrows1] at h; exact Except.noConfusion h
    | ok rows1 =>
      simp only [hrows1] at h
      cases hrn : syllRowsOfWords A (wn + 1) ws with
      | error e2 => simp only [hrn] at h; exact Except.noConfusion h
      | ok rn =>
        simp only [hrn] at h
        simp only [Except.ok.injEq] at h
        subst h
        rcases List.mem_append.mp hr with h1 | h2
        · exact mem_syllRowsOfWord A wn w.syllables rows1 hrows1 r h1
        · exact ih (wn + 1) rn hrn h2

theorem mem_syllRowsOfLines (A : List WordRow) (wn : Nat) (lines : List Line)
    (out : List SyllRow × Nat) (h : syllRowsOfLines A wn lines = .ok out)
    (r : SyllRow) (hr : r ∈ out.1) :
    ∃ wr ∈ A, ∃ s, r = syllRowOf wr s := by
  induction lines generalizing wn out with
  | nil =>
    simp only [syllRowsOfLines, Except.ok.injEq] at h
    subst h
    cases hr
  | cons line rest ih =>
    simp only [syllRowsOfLines] at h
    cases hn : pyInt line.line_number with
    | none => simp only [hn] at h; exact Except.noConfusion h
    | some n =>
      simp only [hn] at h
      cases hrw1 : syllRowsOfWords A wn line.words with
      | error e2 => simp only [hrw1] at h; exact Except.noConfusion h
      | ok rw1 =>
        simp only [hrw1] at h
        cases hrw2 : syllRowsOfLines A rw1.2 rest with
        | error e2 => simp only [hrw2] at h; exact Except.noConfusion h
        | ok rw2 =>
          simp only [hrw2] at h
          simp only [Except.ok.injEq] at h
          subst h
          rcases List.mem_append.mp hr with h1 | h2
          · exact mem_syllRowsOfWords A wn line.words rw1 hrw1 r h1
          · exact ih rw1.2 rw2 hrw2 h2

/-! ## Claim C4 -/

/-- C4: at every granularity, every produced row carries `author`,
`poem_title` and `manually_checked` unchanged from the owning poem. -/
theorem reductions_preserve_poem_context (p : Poem) :
    (∀ r ∈ get_stanza_features p,
      r.author = p.author ∧ r.poem_title = p.poem_title ∧
        r.manually_checked = p.manually_checked) ∧
    (∀ r ∈ get_line_features p,
      r.author = p.author ∧ r.poem_title = p.poem_title ∧
        r.manually_checked = p.manually_checked) ∧
    (∀ rows, get_word_features p = .ok rows → ∀ r ∈ rows,
      r.author = p.author ∧ r.poem_title = p.poem_title ∧
        r.manually_checked = p.manually_checked) ∧
    (∀ rows, get_syllable_features p = .ok rows → ∀ r ∈ rows,
      r.author = p.author ∧ r.poem_title = p.poem_title ∧
        r.manually_checked = p.manually_checked) := by
  refine ⟨fun r hr => stanza_row_context p r hr,
    fun r hr => line_row_context p r hr, ?_, ?_⟩
  · intro rows hok r hr
    obtain ⟨lf, hlf, w, rfl⟩ :=
      mem_wordRowsOfLines (get_line_features p) (poemLines p) rows hok r hr
    exact line_row_context p lf hlf
  · intro rows hok r hr
    unfold get_syllable_features at hok
    cases hall : get_word_features p with
    | error e2 => simp only [hall] at hok; exact Except.noConfusion hok
    | ok allWords =>
      simp only [hall] at hok
      cases hrw : syllRowsOfLines allWords 0 (poemLines p) with
      | error e2 => simp only [hrw] at hok; exact Except.noConfusion hok
      | ok rw =>
        simp only [hrw] at hok
        simp only [Except.ok.injEq] at hok
        subst hok
        obtain ⟨wr, hwr, s, rfl⟩ :=
          mem_syllRowsOfLines allWords 0 (poemLines p) rw hrw r hr
        obtain ⟨lf, hlf, w, rfl⟩ :=
          mem_wordRowsOfLines (get_line_features p) (poemLines p) allWords hall wr hwr
        exact line_row_context p lf hlf

/-- Witness for C4 at the concrete poem `poemCtx` and its stanza row. -/
theorem reductions_preserve_poem_context_witness :
    ({ stanza_number := "1", manually_checked := false, poem_title := some "Title",
       author := some "Author", stanza_text := "hola", stanza_type := "s" } :
      StanzaRow).author = poemCtx.author ∧
    ({ stanza_number := "1", manually_checked := false, poem_title := some "Title",
       author := some "Author", stanza_text := "hola", stanza_type := "s" } :
      StanzaRow).poem_title = poemCtx.poem_title ∧
    ({ stanza_number := "1", manually_checked := false, poem_title := some "Title",
       author := some "Author", stanza_text := "hola", stanza_type := "s" } :
      StanzaRow).manually_checked = poemCtx.manually_checked :=
  (reductions_preserve_poem_context poemCtx).1 _ (by decide)

/-! ## Claim C5 -/

theorem errorLogs_append (a b : List Log) :
    errorLogs (a ++ b) = errorLogs a ++ errorLogs b := by
  simp [errorLogs]

/-- C5: requesting a granularity that is not in the corpus's declared
set yields no result items for that corpus and exactly one error-level
diagnostic, whose text names both the requested granularity and the
corpus; processing is not aborted (the model stays total). -/
theorem unsupported_granularity_empty_one_diagnostic
    (registry : List Corpus) (folders : List String)
    (docsOf : String → List Element) (i : Int) (corpus : Corpus) (g : String)
    (features : List Poem)
    (hc : pyListGet registry i = some corpus)
    (hg : g ∉ corpus.properties.granularity)
    (hf : get_features (docsOf corpus.properties.folder_name) = .ok features)
    (hw : writable features = .ok ()) :
    (get_corpora registry folders docsOf [i] (some g)).1 = [] ∧
    errorLogs (get_corpora registry folders docsOf [i] (some g)).2 =
      [(.error, "'" ++ g ++ "' granularity not found on '" ++ corpus.name ++
        "' properties")] := by
  have hp : processIndex registry docsOf (some g) i =
      ([], [(.error, "'" ++ g ++ "' granularity not found on '" ++ corpus.name ++
        "' properties")], none) := by
    simp only [processIndex, hc, hf, hw]
    simp [hg]
  have hloop : getCorporaLoop registry docsOf (some g) [i] =
      ([], [(.error, "'" ++ g ++ "' granularity not found on '" ++ corpus.name ++
        "' properties")]) := by
    simp [getCorporaLoop, hp]
  have hdl : errorLogs (download_corpora registry folders [i]) = [] := by
    simp only [download_corpora, downloadCorporaLogs, hc]
    by_cases hfol : corpus.properties.folder_name ∈ folders <;>
      simp [hfol, errorLogs]
  constructor
  · simp [get_corpora, hloop]
  · simp only [get_corpora, hloop, errorLogs_append, hdl]
    simp [errorLogs]

/-- Witness for C5 at a concrete registry declaring only stanza
granularity while word granularity is requested. -/
theorem unsupported_granularity_empty_one_diagnostic_witness :
    (get_corpora registryA [] (fun _ => []) [0] (some "word")).1 = [] ∧
    errorLogs (get_corpora registryA [] (fun _ => []) [0] (some "word")).2 =
      [(.error, "'" ++ "word" ++ "' granularity not found on '" ++ "testing" ++
        "' properties")] :=
  unsupported_granularity_empty_one_diagnostic registryA [] (fun _ => []) 0
    { name := "testing",
      properties := { folder_name := "averell", granularity := ["stanza"], reader := "r" } }
    "word" [] (by decide) (by decide) rfl rfl

end Averell
